import Mathlib

/-!
# Verification of the wikimd core against its specification

Shallow embedding of the Go sources of `euforicio/wikimd`:
the Content Service path validation (`internal/content/service.go`),
the document CRUD operations, the filesystem-event handling and event
broadcast, the renderer cache (`internal/renderer/service.go`), the
markdown link transformer, and the CSRF middleware
(`internal/server/csrf.go`).

Modelling conventions:
* Go strings are Lean `String`s; `strings.HasPrefix/HasSuffix/Contains`
  are embedded via decidable prefix/suffix/infix predicates on `.data`.
* The server runs on Unix, where `filepath.Separator = '/'`,
  `filepath.ToSlash`/`FromSlash` are the identity and
  `filepath.VolumeName` always returns `""`; the Windows-only branches
  of the Go code are therefore no-ops and are embedded as such.
* `time.Time` is embedded as `Nat`, with `0` standing for Go's zero
  `time.Time` (`IsZero` ↔ `= 0`, `Equal` ↔ `=`).
-/

namespace WikiMD

/-! ## Go string primitives -/

/-- Embeds Go `strings.HasPrefix s pre`. -/
def goHasPrefix (s pre : String) : Bool := decide (pre.data <+: s.data)

/-- Embeds Go `strings.HasSuffix s suf`. -/
def goHasSuffix (s suf : String) : Bool := decide (suf.data <:+ s.data)

/-- Embeds Go `strings.Contains s sub`. -/
def goContains (s sub : String) : Bool := decide (sub.data <:+: s.data)

/-- ASCII white-space recognised by Go `unicode.IsSpace` (the inputs the
claims exercise contain at most ASCII white-space). -/
def goIsSpace (c : Char) : Bool :=
  c = ' ' || c = '\t' || c = '\n' || c = '\r' || c = '\x0b' || c = '\x0c'

/-- Embeds Go `strings.TrimSpace`. -/
def goTrimSpace (s : String) : String :=
  String.mk (((s.data.dropWhile goIsSpace).reverse.dropWhile goIsSpace).reverse)

/-- ASCII lower-casing, the fragment of Go `strings.ToLower` relevant to
paths compared by `isMarkdownPath` and hosts compared by `normalizeHost`. -/
def lowerChar (c : Char) : Char :=
  if 'A' ≤ c && c ≤ 'Z' then Char.ofNat (c.toNat + 32) else c

/-- Embeds Go `strings.ToLower` (ASCII fragment). -/
def goToLower (s : String) : String := String.mk (s.data.map lowerChar)

/-- Embeds Go `strings.TrimPrefix`. -/
def goTrimPrefix (s pre : String) : String :=
  if goHasPrefix s pre then String.mk (s.data.drop pre.data.length) else s

/-! ## Go `path`/`filepath` lexical operations (Unix) -/

/-- Split a character list on a separator character, keeping empty
segments — the behaviour of Go `strings.Split` for a 1-byte separator. -/
def splitCharAux (c : Char) : List Char → List Char → List (List Char)
  | cur, [] => [cur.reverse]
  | cur, x :: xs =>
    if x = c then cur.reverse :: splitCharAux c [] xs
    else splitCharAux c (x :: cur) xs

/-- One step of the `path.Clean` element processing: `out` is the stack of
kept segments (most recent first), `rooted` tells whether the path began
with `/`. Empty and `.` elements are dropped; `..` pops a poppable
segment, is dropped at the root, and is kept when there is nothing to
pop in a relative path. -/
def cleanStep (rooted : Bool) (out : List (List Char)) (seg : List Char) : List (List Char) :=
  if seg = [] || seg = ['.'] then out
  else if seg = ['.', '.'] then
    match out with
    | [] => if rooted then [] else [['.', '.']]
    | top :: rest => if top = ['.', '.'] then seg :: out else rest
  else seg :: out

/-- Embeds Go `path.Clean` (= `filepath.Clean` on Unix): collapse `//`,
drop `.` elements, resolve `..` lexically, return `.` for an empty
result and `/` for an emptied rooted path. -/
def goClean (p : String) : String :=
  if p = "" then "."
  else
    let rooted := goHasPrefix p "/"
    let segs := ((splitCharAux '/' [] p.data).foldl (cleanStep rooted) []).reverse
    let body := String.mk (List.intercalate ['/'] segs)
    if rooted then
      if body = "" then "/" else "/" ++ body
    else
      if body = "" then "." else body

/-- Embeds Go `filepath.IsAbs` on Unix. -/
def goIsAbs (p : String) : Bool := goHasPrefix p "/"

/-- Embeds Go `filepath.Join(a, b)` on Unix: empty elements are skipped,
then the result is cleaned. -/
def goJoin (a b : String) : String :=
  if a = "" && b = "" then ""
  else if a = "" then goClean b
  else if b = "" then goClean a
  else goClean (a ++ "/" ++ b)

/-- Embeds Go `filepath.Abs` on Unix for the inputs this codebase
produces: `Abs` on an absolute path is `Clean`. For a relative input Go
would join with the process working directory, modelled here as `/`;
that branch is unreachable when the service root is absolute, because
`filepath.Join(root, …)` of an absolute root is absolute. -/
def goAbs (p : String) : String :=
  if goIsAbs p then goClean p else goJoin "/" p

/-- The path elements of a `goClean`ed path: none for `.` and `/`,
otherwise the `/`-separated components (with the leading `/` of a
rooted path removed). -/
def segsOf (p : String) : List (List Char) :=
  if p = "/" || p = "." then []
  else if goIsAbs p then splitCharAux '/' [] (p.data.drop 1)
  else splitCharAux '/' [] p.data

/-- Drop the common leading elements of two segment lists. -/
def dropCommon : List (List Char) → List (List Char) → List (List Char) × List (List Char)
  | a :: as, b :: bs => if a = b then dropCommon as bs else (a :: as, b :: bs)
  | as, bs => (as, bs)

/-- Embeds Go `filepath.Rel(base, targ)` on Unix (volume-free paths):
clean both, fail when exactly one is rooted, walk past the common
elements, fail when the remaining base begins with `..`, and otherwise
prepend one `..` per remaining base element to the remaining target. -/
def goRel (base targ : String) : Option String :=
  let b := goClean base
  let t := goClean targ
  if goIsAbs b ≠ goIsAbs t then none
  else if b = t then some "."
  else
    let rem := dropCommon (segsOf b) (segsOf t)
    if rem.1.head? = some ['.', '.'] then none
    else some (String.mk (List.intercalate ['/'] (rem.1.map (fun _ => ['.', '.']) ++ rem.2)))

/-! ## Content Service: path validation (`resolveDocumentPath`) -/

/-- Embeds `isMarkdownPath` from `internal/content/service.go`: the
lower-cased path ends in `.md` or `.markdown`. -/
def isMarkdownPath (p : String) : Bool :=
  let name := goToLower p
  goHasSuffix name ".md" || goHasSuffix name ".markdown"

/-- Embeds `(*Service).resolveDocumentPath` from
`internal/content/service.go`, lines 160–199. `root` is the service's
absolute root directory. Failures (all of kind `invalid_path`) are
`none`; success returns the wiki-relative cleaned path and the joined
absolute path. On Unix `filepath.VolumeName` is always empty, so the
volume-prefix rejection never fires and is omitted, and
`filepath.ToSlash`/`FromSlash` are identities. `filepath.Abs` and
`filepath.Rel` cannot themselves error on these inputs. -/
def resolveDocumentPath (root relPath : String) : Option (String × String) :=
  let trimmed := goTrimSpace relPath
  if trimmed = "" then none
  else
    let c := goClean trimmed
    if c = "." || c = "" then none
    else if goIsAbs c then none
    else if goHasPrefix c "../" || goContains c "/../" then none
    else
      let c1 := if goHasSuffix c ".md" || goHasSuffix c ".markdown" then c else c ++ ".md"
      let abs := goAbs (goJoin root c1)
      match goRel root abs with
      | none => none
      | some relToRoot =>
        if relToRoot = ".." || goHasPrefix relToRoot "../" then none
        else some (c1, abs)

/-! ## Renderer: cache and `Render` (`internal/renderer/service.go`) -/

/-- Embeds `renderer.Document`; `Metadata` is not examined by any claim
and its extraction is part of the external goldmark pipeline, so the
structure keeps the fields the cache claims observe: `HTML` (the
converter's output), `Raw` (set to `string(content)`) and `Modified`
(set to the caller's `modTime`). -/
structure Document where
  html : String
  raw : String
  modified : Nat
deriving DecidableEq, Repr

/-- Embeds the renderer's private `cacheEntry`. -/
structure CacheEntry where
  modTime : Nat
  doc : Document
deriving DecidableEq, Repr

/-- The renderer's `sync.Map` cache, as an association list keyed by the
path string handed to `Render`/`Invalidate`. -/
abbrev RenderCache : Type := List (String × CacheEntry)

/-- `sync.Map.Load`. -/
def cacheLookup : RenderCache → String → Option CacheEntry
  | [], _ => none
  | kv :: σ, k => if kv.1 = k then some kv.2 else cacheLookup σ k

/-- `sync.Map.Delete`, the body of `renderer.(*Service).Invalidate`. -/
def cacheDelete : RenderCache → String → RenderCache
  | [], _ => []
  | kv :: σ, k => if kv.1 = k then cacheDelete σ k else kv :: cacheDelete σ k

/-- `sync.Map.Store`. -/
def cacheStore (σ : RenderCache) (k : String) (v : CacheEntry) : RenderCache :=
  (k, v) :: cacheDelete σ k

/-- Embeds `renderer.(*Service).Render` (lines 440–469): a cache hit
requires a stored entry whose modification time is non-zero and equal
to the caller's `modTime`; otherwise the content is converted (the
goldmark pipeline is the parameter `convert`), the document is built
with `Raw = content` and `Modified = modTime`, and stored. Returns the
document together with the updated cache. -/
def renderOp (convert : String → String) (σ : RenderCache) (path : String)
    (modTime : Nat) (content : String) : Document × RenderCache :=
  match cacheLookup σ path with
  | some e =>
    if e.modTime ≠ 0 ∧ modTime = e.modTime then (e.doc, σ)
    else
      let doc : Document := ⟨convert content, content, modTime⟩
      (doc, cacheStore σ path ⟨modTime, doc⟩)
  | none =>
    let doc : Document := ⟨convert content, content, modTime⟩
    (doc, cacheStore σ path ⟨modTime, doc⟩)

/-! ## Navigation tree (`internal/content/tree`) -/

/-- Embeds `tree.NodeType`. -/
inductive NodeType where
  | directory
  | file
deriving DecidableEq, Repr

/-- Embeds `tree.Node` (`internal/content/tree/tree.go`). The claims only
publish and swap whole snapshots, so the builder that fills the fields
(`tree.Build`, an I/O walk) stays an oracle: a rebuild outcome is an
`Option Node`. -/
inductive Node where
  | mk (name rawName relativePath slug title : String) (typ : NodeType)
       (modified : Nat) (size : Int) (children : List Node)

/-- Embeds `fsnotify.Op` as its bit fields. -/
structure FsOp where
  create : Bool
  write : Bool
  remove : Bool
  rename : Bool
  chmod : Bool
deriving DecidableEq, Repr

/-- Embeds `content.Event` (the `timestamp` field is `time.Now()`, an
external clock reading no claim observes, and is omitted). -/
structure Event where
  type : String
  path : String
deriving DecidableEq, Repr

/-- Embeds a `content.subscriber`: its context-cancelled flag and its
buffered channel (`make(chan Event, 8)`) as the queue contents. -/
structure Subscriber where
  ctxDone : Bool
  queue : List Event
deriving DecidableEq, Repr

/-- A file on disk: modification time and contents. The filesystem below
the root is an association list from absolute path to file; directories
are not separate entities (no claim stats a directory). -/
structure FileInfo where
  modTime : Nat
  content : String
deriving DecidableEq, Repr

/-- The mutable state of a `content.Service`: the filesystem below the
root, the renderer's cache (shared with the `renderer.Service` it
holds), the tree snapshot behind the atomic pointer (`nil` = `none`),
and the subscriber registry. -/
structure ServiceState where
  fs : List (String × FileInfo)
  cache : RenderCache
  treeSnap : Option Node
  subs : List Subscriber

/-- `os.Stat`-as-lookup on the modelled filesystem. -/
def fsLookup : List (String × FileInfo) → String → Option FileInfo
  | [], _ => none
  | kv :: fs, k => if kv.1 = k then some kv.2 else fsLookup fs k

/-- `os.Remove` on the modelled filesystem. -/
def fsRemove : List (String × FileInfo) → String → List (String × FileInfo)
  | [], _ => []
  | kv :: fs, k => if kv.1 = k then fsRemove fs k else kv :: fsRemove fs k

/-- Store a file (the observable effect of `writeFileAtomic`: the target
ends up with the new contents; the temp-file/sync/chmod/rename dance has
no other observable outcome on success). -/
def fsStore (fs : List (String × FileInfo)) (k : String) (v : FileInfo) :
    List (String × FileInfo) :=
  (k, v) :: fsRemove fs k

/-- Error kinds the Content Service operations surface (§7 taxonomy).
`notMarkdown` is the "markdown documents only" rejection, reported
through `invalid_path`-style errors by the handlers. -/
inductive OpError where
  | invalidPath
  | notMarkdown
  | notFound
  | alreadyExists
  | isDirectory
deriving DecidableEq, Repr

/-! ## Content Service: CRUD operations (`internal/content/service.go`) -/

/-- Embeds `(*Service).Document` (lines 129–158): resolve the path, stat
and read the file, and render it passing the wiki-relative path `rel`
to the renderer — so the cache key is `rel`, not `abs`. `convert`
stands for the goldmark pipeline, `now`-style clock inputs do not
occur. The context-cancelled early return is dropped (no claim passes a
cancelled context to a CRUD operation). -/
def documentOp (convert : String → String) (root : String) (st : ServiceState)
    (relPath : String) : Except OpError (Document × ServiceState) :=
  match resolveDocumentPath root relPath with
  | none => .error .invalidPath
  | some (rel, abs) =>
    match fsLookup st.fs abs with
    | none => .error .notFound
    | some info =>
      let r := renderOp convert st.cache rel info.modTime info.content
      .ok (r.1, { st with cache := r.2 })

/-- Embeds `(*Service).SaveDocument` (lines 375–407): resolve, require a
markdown wiki path, require the target to exist, write atomically with
modification time `now`, then `s.renderer.Invalidate(abs)` — note the
argument is the absolute path. -/
def saveDocument (root : String) (st : ServiceState) (relPath data : String)
    (now : Nat) : Except OpError ServiceState :=
  match resolveDocumentPath root relPath with
  | none => .error .invalidPath
  | some (rel, abs) =>
    if ¬ isMarkdownPath rel then .error .notMarkdown
    else
      match fsLookup st.fs abs with
      | none => .error .notFound
      | some _ =>
        .ok { st with fs := fsStore st.fs abs ⟨now, data⟩, cache := cacheDelete st.cache abs }

/-- Embeds `(*Service).CreateDocument` (lines 410–441): like save but the
target must not exist. Ends with `s.renderer.Invalidate(abs)`. -/
def createDocument (root : String) (st : ServiceState) (relPath data : String)
    (now : Nat) : Except OpError ServiceState :=
  match resolveDocumentPath root relPath with
  | none => .error .invalidPath
  | some (rel, abs) =>
    if ¬ isMarkdownPath rel then .error .notMarkdown
    else
      match fsLookup st.fs abs with
      | some _ => .error .alreadyExists
      | none =>
        .ok { st with fs := fsStore st.fs abs ⟨now, data⟩, cache := cacheDelete st.cache abs }

/-- Embeds `(*Service).RenameDocument` (lines 444–487): resolve both
paths, require markdown on both, source must exist, destination must
not, `os.Rename`, then `Invalidate(fromAbs)` and `Invalidate(toAbs)`
— again with absolute paths. -/
def renameDocument (root : String) (st : ServiceState) (fromPath toPath : String) :
    Except OpError ServiceState :=
  match resolveDocumentPath root fromPath with
  | none => .error .invalidPath
  | some (fromRel, fromAbs) =>
    match resolveDocumentPath root toPath with
    | none => .error .invalidPath
    | some (toRel, toAbs) =>
      if ¬ (isMarkdownPath fromRel ∧ isMarkdownPath toRel) then .error .notMarkdown
      else
        match fsLookup st.fs fromAbs with
        | none => .error .notFound
        | some info =>
          match fsLookup st.fs toAbs with
          | some _ => .error .alreadyExists
          | none =>
            .ok { st with
                  fs := fsStore (fsRemove st.fs fromAbs) toAbs info,
                  cache := cacheDelete (cacheDelete st.cache fromAbs) toAbs }

/-- Embeds `(*Service).DeleteDocument` (lines 490–518): resolve, require
markdown, require existence, `os.Remove`, then `Invalidate(abs)`. -/
def deleteDocument (root : String) (st : ServiceState) (relPath : String) :
    Except OpError ServiceState :=
  match resolveDocumentPath root relPath with
  | none => .error .invalidPath
  | some (rel, abs) =>
    if ¬ isMarkdownPath rel then .error .notMarkdown
    else
      match fsLookup st.fs abs with
      | none => .error .notFound
      | some _ =>
        .ok { st with fs := fsRemove st.fs abs, cache := cacheDelete st.cache abs }

/-! ## Content Service: event handling (`internal/content/service.go`) -/

/-- The event-type string constants of `internal/content/service.go`. -/
def eventTypeTreeUpdated : String := "treeUpdated"

/-- `eventTypeDeleted` constant. -/
def eventTypeDeleted : String := "deleted"

/-- `eventTypePageUpdated` constant. -/
def eventTypePageUpdated : String := "pageUpdated"

/-- `eventTypeUnknown` constant. -/
def eventTypeUnknown : String := "unknown"

/-- Embeds `classifyEvent` (lines 556–576). `existsOnDisk` is the outcome
of the `os.Stat(path)` call in the remove branch. -/
def classifyEvent (existsOnDisk : Bool) (op : FsOp) (isMarkdown : Bool) : String :=
  if op.remove then
    if isMarkdown then
      if existsOnDisk then eventTypePageUpdated else eventTypeDeleted
    else eventTypeTreeUpdated
  else if op.rename then eventTypeTreeUpdated
  else if op.write || op.create then
    if isMarkdown then eventTypePageUpdated else eventTypeTreeUpdated
  else eventTypeUnknown

/-- Embeds `(*Service).relativePath` (lines 366–372): `filepath.Rel`
falling back to the input on error (`ToSlash` is the identity on Unix). -/
def relativePath (root abs : String) : String :=
  match goRel root abs with
  | none => abs
  | some rel => rel

/-- Embeds `(*Service).broadcast` (lines 319–338): each subscriber whose
context (or the service context, `svcDone`) is done is marked stale and
afterwards detached; otherwise a non-blocking send enqueues the event
when the 8-slot buffer has room and silently drops it when full. Go's
`select` picks randomly among ready cases; the model checks the
cancelled cases first, which only matters for subscribers that are
already stale. -/
def broadcast (svcDone : Bool) (subs : List Subscriber) (evt : Event) : List Subscriber :=
  (subs.map fun sub =>
      if sub.ctxDone || svcDone then sub
      else if sub.queue.length < 8 then { sub with queue := sub.queue ++ [evt] }
      else sub)
    |>.filter (fun sub => ¬ (sub.ctxDone || svcDone))

/-- The oracle inputs of one watcher iteration: the `os.Stat` answers and
the `tree.Build` outcome inside `rebuildTree` (failure = `none`; the
5-second-timeout context only influences that outcome). -/
structure WatchEnv where
  existsOnDisk : Bool
  buildResult : Option Node
  svcDone : Bool

/-- Embeds `rebuildTree` (lines 303–317): on build success store the new
snapshot and report `true`; on failure leave the snapshot untouched and
report `false`. The rebuild mutex serialises calls and is implicit in
the sequential model. -/
def rebuildTree (snap : Option Node) (buildResult : Option Node) : Option Node × Bool :=
  match buildResult with
  | some n => (some n, true)
  | none => (snap, false)

/-- The cache effect of one watcher iteration (lines 280–284 of
`handleEvent`): invalidate the renderer cache at `event.Name` — the
absolute path — for markdown create/write/remove/rename events. -/
def handleEventCache (σ : RenderCache) (name : String) (op : FsOp) : RenderCache :=
  if isMarkdownPath name && (op.create || op.write || op.remove || op.rename) then
    cacheDelete σ name
  else σ

/-- Embeds `(*Service).handleEvent` (lines 270–301): ignore empty names;
invalidate the renderer cache at `event.Name` (the absolute path) for
markdown create/write/remove/rename; classify; rebuild the tree; when
the rebuild failed and the classified type is `treeUpdated` or
`deleted`, skip the broadcast; otherwise broadcast the event with the
root-relative path. The recursive watch-add for created directories
only mutates the OS watcher and has no modelled state. -/
def handleEvent (root : String) (st : ServiceState) (name : String) (op : FsOp)
    (env : WatchEnv) : ServiceState :=
  if name = "" then st
  else if ¬ (rebuildTree st.treeSnap env.buildResult).2 ∧
      (classifyEvent env.existsOnDisk op (isMarkdownPath name) = eventTypeTreeUpdated ∨
       classifyEvent env.existsOnDisk op (isMarkdownPath name) = eventTypeDeleted) then
    { st with
        cache := handleEventCache st.cache name op
        treeSnap := (rebuildTree st.treeSnap env.buildResult).1 }
  else
    { st with
        cache := handleEventCache st.cache name op
        treeSnap := (rebuildTree st.treeSnap env.buildResult).1
        subs := broadcast env.svcDone st.subs
          { type := classifyEvent env.existsOnDisk op (isMarkdownPath name)
            path := relativePath root name } }

/-- The two failure modes of `CurrentTree`. -/
inductive TreeErr where
  | ctxCanceled
  | uninitialized
deriving DecidableEq, Repr

/-- Embeds `(*Service).CurrentTree` (lines 117–126): a cancelled context
errors first; a `nil` snapshot yields the "tree not initialized" error;
otherwise the snapshot is returned. -/
def currentTree (ctxCanceled : Bool) (st : ServiceState) : Except TreeErr Node :=
  if ctxCanceled then .error .ctxCanceled
  else
    match st.treeSnap with
    | none => .error .uninitialized
    | some n => .ok n

/-- The states a live service can be in once `NewService` has returned
successfully. `init` is the state right after a successful `initTree`
(which `NewService` requires — on failure it returns an error and no
service exists). The steps are every code path that runs against a live
service: watcher iterations, the CRUD mutations, document reads,
subscriber add/remove and external filesystem changes. Only `initTree`
and `rebuildTree` ever store to the tree pointer. -/
inductive Reachable : ServiceState → Prop where
  | init (n : Node) (fs : List (String × FileInfo)) :
      Reachable ⟨fs, [], some n, []⟩
  | watch {st : ServiceState} (root name : String) (op : FsOp) (env : WatchEnv) :
      Reachable st → Reachable (handleEvent root st name op env)
  | save {st st' : ServiceState} (root relPath data : String) (now : Nat) :
      Reachable st → saveDocument root st relPath data now = .ok st' → Reachable st'
  | create {st st' : ServiceState} (root relPath data : String) (now : Nat) :
      Reachable st → createDocument root st relPath data now = .ok st' → Reachable st'
  | rename {st st' : ServiceState} (root fromPath toPath : String) :
      Reachable st → renameDocument root st fromPath toPath = .ok st' → Reachable st'
  | delete {st st' : ServiceState} (root relPath : String) :
      Reachable st → deleteDocument root st relPath = .ok st' → Reachable st'
  | document {st : ServiceState} (convert : String → String) (root relPath : String)
      (d : Document) (st' : ServiceState) :
      Reachable st → documentOp convert root st relPath = .ok (d, st') → Reachable st'
  | subsChange {st : ServiceState} (subs' : List Subscriber) :
      Reachable st → Reachable { st with subs := subs' }
  | fsChange {st : ServiceState} (fs' : List (String × FileInfo)) :
      Reachable st → Reachable { st with fs := fs' }

/-! ## Renderer: link rewriting (`internal/renderer/service.go`) -/

/-- Embeds Go `path.Dir`: everything up to and including the final `/`,
cleaned (`path.Split` + `path.Clean`). -/
def goPathDir (p : String) : String :=
  goClean (String.mk ((p.data.reverse.dropWhile (fun c => c ≠ '/')).reverse))

/-- Embeds `(*linkTransformer).isExternalLink`. -/
def isExternalLink (dest : String) : Bool :=
  goHasPrefix dest "http://" || goHasPrefix dest "https://"

/-- Embeds `normalizeWikiPath` (lines 370–379): a non-absolute destination
is joined with the current document's directory (when that is neither
empty nor `.`) and cleaned; finally a leading `/` is trimmed. -/
def normalizeWikiPath (dest currentDir : String) : String :=
  if ¬ goHasPrefix dest "/" then
    let d1 := if currentDir ≠ "" ∧ currentDir ≠ "." then goJoin currentDir dest else dest
    goTrimPrefix (goClean d1) "/"
  else goTrimPrefix dest "/"

/-- Embeds `(*linkTransformer).transformLink` (lines 344–355) acting on a
link's destination string: skip empty, external, fragment and already
`/page/`-prefixed destinations, skip non-`.md` destinations, and rewrite
the rest to `/page/<normalized>`. `currentDir` is `path.Dir` of the
document's wiki-relative path, as computed by `Transform`. -/
def transformLink (dest currentDir : String) : String :=
  if dest = "" || isExternalLink dest || goHasPrefix dest "#" || goHasPrefix dest "/page/" then
    dest
  else if ¬ goHasSuffix dest ".md" then dest
  else "/page/" ++ normalizeWikiPath dest currentDir

/-! ## CSRF gate (`internal/server/csrf.go`) -/

/-- Embeds Go `url.Parse(s).Host` for the header shapes the middleware
receives (`scheme://host[:port][/path…]`): the text between the first
`://` and the next `/`. Absent an authority the host is empty (and a
parse error would likewise reject the request). -/
def urlHostAux : List Char → List Char → Option (List Char)
  | pat, [] => if pat = [] then some [] else none
  | pat, x :: xs =>
    if pat.isPrefixOf (x :: xs) then some ((x :: xs).drop pat.length)
    else urlHostAux pat xs

/-- The `Host` component of a parsed origin/referer URL. -/
def urlHost (s : String) : String :=
  match urlHostAux "://".data s.data with
  | none => ""
  | some rest => String.mk (rest.takeWhile (fun c => c ≠ '/'))

/-- Embeds `normalizeHost` (lines 238–250 of the csrf file): strip
everything from the **last** `:` on (intended as the port), then map
`localhost`/`127.0.0.1`/`[::1]` to `localhost`, else lower-case. Note
the `[::1]` comparison is performed after the strip. -/
def normalizeHost (host : String) : String :=
  let stripped :=
    if host.data.contains ':' then
      String.mk (((host.data.reverse.dropWhile (fun c => c ≠ ':')).drop 1).reverse)
    else host
  if stripped = "localhost" || stripped = "127.0.0.1" || stripped = "[::1]" then "localhost"
  else goToLower stripped

/-- Embeds `isValidOrigin` (lines 210–235). Headers are `Get` results, so
an absent header is the empty string; the request host `r.Host` is the
`host` argument (the `r.URL.Host` fallback applies only to requests
with no Host header, which Go's server does not produce). -/
def isValidOrigin (origin referer host : String) : Bool :=
  let o := if origin = "" then referer else origin
  if o = "" then false
  else normalizeHost (urlHost o) = normalizeHost host

/-- The observable outcome of the CSRF middleware for one request. -/
inductive CsrfResult where
  | pass
  | forbidden
deriving DecidableEq, Repr

/-- Embeds `csrfMiddleware` (lines 184–207): safe methods pass, `/healthz`
and `/static/*` pass, all other requests pass exactly when
`isValidOrigin` holds and are otherwise answered `403 Forbidden:
Invalid origin` without invoking the wrapped handler. -/
def csrfMiddleware (method path origin referer host : String) : CsrfResult :=
  if method = "GET" || method = "HEAD" || method = "OPTIONS" then .pass
  else if path = "/healthz" || goHasPrefix path "/static/" then .pass
  else if ¬ isValidOrigin origin referer host then .forbidden
  else .pass

/-! ## Helper lemmas -/

theorem goHasSuffix_append (s t : String) : goHasSuffix (s ++ t) t = true := by
  simp only [goHasSuffix, decide_eq_true_eq, String.data_append]
  exact List.suffix_append s.data t.data

theorem goHasSuffix_toLower {s t : String} (h : goHasSuffix s t = true) :
    goHasSuffix (goToLower s) (goToLower t) = true := by
  simp only [goHasSuffix, decide_eq_true_eq] at h ⊢
  exact h.map lowerChar

/-- Inversion of a successful `resolveDocumentPath`: the wiki-relative
result carries a markdown extension (either it already had one or `.md`
was appended), and the final `filepath.Rel` guard passed. -/
theorem resolve_spec {root input rel abs : String}
    (h : resolveDocumentPath root input = some (rel, abs)) :
    (goHasSuffix rel ".md" = true ∨ goHasSuffix rel ".markdown" = true) ∧
    ∃ r, goRel root abs = some r ∧ r ≠ ".." ∧ goHasPrefix r "../" = false := by
  simp only [resolveDocumentPath] at h
  split at h
  · exact absurd h (by simp)
  · split at h
    · exact absurd h (by simp)
    · split at h
      · exact absurd h (by simp)
      · split at h
        · exact absurd h (by simp)
        · split at h
          · exact absurd h (by simp)
          · rename_i heqRel
            split at h
            · exact absurd h (by simp)
            · rename_i hguard
              injection h with h
              injection h with h₁ h₂
              subst h₁; subst h₂
              constructor
              · split
                · rename_i hsuf
                  simpa using hsuf
                · exact Or.inl (goHasSuffix_append _ _)
              · refine ⟨_, heqRel, ?_, ?_⟩
                · intro hcontra
                  exact hguard (by simp [hcontra])
                · by_contra hcontra
                  simp only [Bool.not_eq_false] at hcontra
                  exact hguard (by simp [hcontra])

/-- A successful `resolveDocumentPath` always returns a markdown wiki
path, so the "markdown documents only" guards in the CRUD operations
never fire after validation. -/
theorem resolve_isMarkdown {root input rel abs : String}
    (h : resolveDocumentPath root input = some (rel, abs)) :
    isMarkdownPath rel = true := by
  rcases (resolve_spec h).1 with hsuf | hsuf
  · have := goHasSuffix_toLower hsuf
    simp only [isMarkdownPath, Bool.or_eq_true]
    left
    simpa [show goToLower ".md" = ".md" by decide] using this
  · have := goHasSuffix_toLower hsuf
    simp only [isMarkdownPath, Bool.or_eq_true]
    right
    simpa [show goToLower ".markdown" = ".markdown" by decide] using this

theorem cacheLookup_delete_self (σ : RenderCache) (k : String) :
    cacheLookup (cacheDelete σ k) k = none := by
  induction σ with
  | nil => rfl
  | cons kv σ ih =>
    by_cases hk : kv.1 = k
    · simpa [cacheDelete, hk] using ih
    · simpa [cacheDelete, cacheLookup, hk] using ih

theorem cacheLookup_delete_ne (σ : RenderCache) (k k' : String) (h : k' ≠ k) :
    cacheLookup (cacheDelete σ k) k' = cacheLookup σ k' := by
  induction σ with
  | nil => rfl
  | cons kv σ ih =>
    by_cases hk : kv.1 = k
    · have hne : ¬ kv.1 = k' := fun hc => h (by rw [← hc]; exact hk)
      simp [cacheDelete, cacheLookup, hk, hne, ih, Ne.symm h]
    · simp [cacheDelete, cacheLookup, hk, ih]

theorem cacheLookup_store_self (σ : RenderCache) (k : String) (v : CacheEntry) :
    cacheLookup (cacheStore σ k v) k = some v := by
  simp [cacheStore, cacheLookup]

/-! ## Claim theorems -/

/-- C1. Path safety: whenever `resolveDocumentPath` succeeds and
returns absolute path `abs`, the relative path from the configured root
to `abs` (`filepath.Rel`) is neither `..` nor starts with `../`, i.e.
`abs` is lexically under the root; all of `Document`, `SaveDocument`,
`CreateDocument`, `RenameDocument` and `DeleteDocument` address the
filesystem only through this validated `abs`. -/
theorem c1_path_safety (root input rel abs : String)
    (h : resolveDocumentPath root input = some (rel, abs)) :
    ∃ r, goRel root abs = some r ∧ r ≠ ".." ∧ goHasPrefix r "../" = false :=
  (resolve_spec h).2

/-- Witness for C1 at the concrete input `docs/a.md` under root `/w`. -/
theorem c1_path_safety_witness :
    ∃ r, goRel "/w" "/w/docs/a.md" = some r ∧ r ≠ ".." ∧ goHasPrefix r "../" = false :=
  c1_path_safety "/w" "docs/a.md" "docs/a.md" "/w/docs/a.md" (by decide)

/-- C2, counterexample: the claim says the input `".."` is rejected
with `invalid_path`, but `filepath.Clean("..") = ".."` neither starts
with `../` nor contains `/../`, so validation accepts it, appends
`.md`, and resolves it to the in-root file `...md`. -/
theorem c2_counterexample :
    resolveDocumentPath "/w" ".." = some ("...md", "/w/...md") := by decide

/-- C2, amended: of the five inputs, `""`, `"../x"`, `"/abs"` and
`"a/../../b"` are rejected by path validation (for every root, before
the root is even consulted); the input `".."` is *not* rejected — it is
cleaned to `..`, escapes both dot-dot checks, receives the `.md`
extension and resolves to the file `...md` directly under the root. -/
theorem c2_amended :
    (∀ root : String,
      resolveDocumentPath root "" = none ∧
      resolveDocumentPath root "../x" = none ∧
      resolveDocumentPath root "/abs" = none ∧
      resolveDocumentPath root "a/../../b" = none) ∧
    resolveDocumentPath "/wiki" ".." = some ("...md", "/wiki/...md") := by
  refine ⟨fun root => ⟨rfl, rfl, rfl, rfl⟩, by decide⟩

theorem save_ne_notMarkdown (root : String) (st : ServiceState) (relPath data : String)
    (now : Nat) : saveDocument root st relPath data now ≠ .error .notMarkdown := by
  intro hcontra
  unfold saveDocument at hcontra
  split at hcontra
  · simp at hcontra
  · rename_i rel abs heq
    split at hcontra
    · rename_i hmd
      exact hmd (by simpa using resolve_isMarkdown heq)
    · split at hcontra <;> simp at hcontra

theorem create_ne_notMarkdown (root : String) (st : ServiceState) (relPath data : String)
    (now : Nat) : createDocument root st relPath data now ≠ .error .notMarkdown := by
  intro hcontra
  unfold createDocument at hcontra
  split at hcontra
  · simp at hcontra
  · rename_i rel abs heq
    split at hcontra
    · rename_i hmd
      exact hmd (by simpa using resolve_isMarkdown heq)
    · split at hcontra <;> simp at hcontra

theorem rename_ne_notMarkdown (root : String) (st : ServiceState) (fromPath toPath : String) :
    renameDocument root st fromPath toPath ≠ .error .notMarkdown := by
  intro hcontra
  unfold renameDocument at hcontra
  split at hcontra
  · simp at hcontra
  · rename_i fromRel fromAbs heqFrom
    split at hcontra
    · simp at hcontra
    · rename_i toRel toAbs heqTo
      split at hcontra
      · rename_i hmd
        exact hmd ⟨by simpa using resolve_isMarkdown heqFrom,
                   by simpa using resolve_isMarkdown heqTo⟩
      · split at hcontra
        · simp at hcontra
        · split at hcontra <;> simp at hcontra

theorem delete_ne_notMarkdown (root : String) (st : ServiceState) (relPath : String) :
    deleteDocument root st relPath ≠ .error .notMarkdown := by
  intro hcontra
  unfold deleteDocument at hcontra
  split at hcontra
  · simp at hcontra
  · rename_i rel abs heq
    split at hcontra
    · rename_i hmd
      exact hmd (by simpa using resolve_isMarkdown heq)
    · split at hcontra <;> simp at hcontra

/-- C10. The `.md` extension is auto-appended by `resolveDocumentPath`
for every operation: a validated wiki path is always a markdown path, so
the markdown-only guards of `SaveDocument`, `CreateDocument`,
`RenameDocument` and `DeleteDocument` never reject a path that passed
validation; concretely, `CreateDocument "notes/a"` creates
`notes/a.md` and `DeleteDocument "notes/a"` deletes `notes/a.md`. -/
theorem c10_md_auto_append :
    (∀ root input rel abs, resolveDocumentPath root input = some (rel, abs) →
      isMarkdownPath rel = true) ∧
    (∀ root st relPath data now, saveDocument root st relPath data now ≠ .error .notMarkdown) ∧
    (∀ root st relPath data now, createDocument root st relPath data now ≠ .error .notMarkdown) ∧
    (∀ root st fromPath toPath, renameDocument root st fromPath toPath ≠ .error .notMarkdown) ∧
    (∀ root st relPath, deleteDocument root st relPath ≠ .error .notMarkdown) ∧
    resolveDocumentPath "/w" "notes/a" = some ("notes/a.md", "/w/notes/a.md") ∧
    createDocument "/w" { fs := [], cache := [], treeSnap := none, subs := [] } "notes/a" "# A" 7
      = .ok { fs := [("/w/notes/a.md", { modTime := 7, content := "# A" })], cache := [],
              treeSnap := none, subs := [] } ∧
    deleteDocument "/w"
        { fs := [("/w/notes/a.md", { modTime := 7, content := "# A" })], cache := [],
          treeSnap := none, subs := [] } "notes/a"
      = .ok { fs := [], cache := [], treeSnap := none, subs := [] } := by
  exact ⟨fun _ _ _ _ h => resolve_isMarkdown h, save_ne_notMarkdown, create_ne_notMarkdown,
    rename_ne_notMarkdown, delete_ne_notMarkdown, by decide, rfl, rfl⟩

/-- Witness for C10: the validated form of `notes/a` is a markdown path. -/
theorem c10_md_auto_append_witness : isMarkdownPath "notes/a.md" = true :=
  c10_md_auto_append.1 "/w" "notes/a" "notes/a.md" "/w/notes/a.md" (by decide)

/-! ### C3: cache invalidation after mutations -/

/-- A concrete tree node for the concrete-state theorems. -/
def exNode : Node := Node.mk "wiki" "wiki" "" "wiki" "wiki" NodeType.directory 0 0 []

/-- Concrete service state: one document `index.md`, empty cache. -/
def exDocState : ServiceState :=
  { fs := [("/w/index.md", { modTime := 5, content := "old" })]
    cache := []
    treeSnap := some exNode
    subs := [] }

/-- The document produced by rendering `index.md` of `exDocState` with
the identity converter. -/
def exDoc : Document := { html := "old", raw := "old", modified := 5 }

/-- `exDocState` after `Document("index.md")`: the renderer cached the
document under the wiki-relative key `index.md`. -/
def exRenderedState : ServiceState :=
  { exDocState with cache := [("index.md", { modTime := 5, doc := exDoc })] }

/-- `exRenderedState` after `SaveDocument("index.md", "new")`. -/
def exSavedState : ServiceState :=
  { exRenderedState with fs := [("/w/index.md", { modTime := 6, content := "new" })] }

/-- C3, counterexample: after a successful `SaveDocument` the
renderer cache *still* contains the entry keyed the way the renderer
keys it. `Document` renders `index.md` passing the wiki-relative path,
so the cache key is `index.md`; `SaveDocument` then calls
`renderer.Invalidate` with the absolute path `/w/index.md`, which
deletes nothing, and the stale entry for `index.md` survives the
mutation. -/
theorem c3_counterexample :
    documentOp id "/w" exDocState "index.md" = .ok (exDoc, exRenderedState) ∧
    saveDocument "/w" exRenderedState "index.md" "new" 6 = .ok exSavedState ∧
    cacheLookup exSavedState.cache "index.md" = some { modTime := 5, doc := exDoc } :=
  ⟨rfl, rfl, rfl⟩

/-- C3, amended: after every successful mutation the service calls
`renderer.Invalidate` with the *absolute filesystem* path(s) returned by
validation (for rename: both source and destination), so the new cache
is exactly the old cache with those absolute keys deleted; every other
key — in particular the wiki-relative key under which `Render` cached
the document — is untouched. Change events and tree rebuilds are not
performed by the mutation itself; they happen when the watcher receives
the resulting filesystem event (`handleEvent`). -/
theorem c3_amended (root relPath toPath data : String) (now : Nat)
    (st st' : ServiceState) (rel abs toRel toAbs : String) :
    (resolveDocumentPath root relPath = some (rel, abs) →
      (saveDocument root st relPath data now = .ok st' →
        st'.cache = cacheDelete st.cache abs) ∧
      (createDocument root st relPath data now = .ok st' →
        st'.cache = cacheDelete st.cache abs) ∧
      (deleteDocument root st relPath = .ok st' →
        st'.cache = cacheDelete st.cache abs) ∧
      (resolveDocumentPath root toPath = some (toRel, toAbs) →
        renameDocument root st relPath toPath = .ok st' →
        st'.cache = cacheDelete (cacheDelete st.cache abs) toAbs)) ∧
    (∀ σ k, cacheLookup (cacheDelete σ k) k = none) ∧
    (∀ σ k k', k' ≠ k → cacheLookup (cacheDelete σ k) k' = cacheLookup σ k') := by
  refine ⟨fun hres => ⟨?_, ?_, ?_, fun hres2 => ?_⟩,
    cacheLookup_delete_self, cacheLookup_delete_ne⟩
  · intro hok
    unfold saveDocument at hok
    rw [hres] at hok
    simp only [resolve_isMarkdown hres, not_true_eq_false, if_false] at hok
    split at hok
    · simp at hok
    · simp only [Except.ok.injEq] at hok
      rw [← hok]
  · intro hok
    unfold createDocument at hok
    rw [hres] at hok
    simp only [resolve_isMarkdown hres, not_true_eq_false, if_false] at hok
    split at hok
    · simp at hok
    · simp only [Except.ok.injEq] at hok
      rw [← hok]
  · intro hok
    unfold deleteDocument at hok
    rw [hres] at hok
    simp only [resolve_isMarkdown hres, not_true_eq_false, if_false] at hok
    split at hok
    · simp at hok
    · simp only [Except.ok.injEq] at hok
      rw [← hok]
  · intro hok
    unfold renameDocument at hok
    rw [hres, hres2] at hok
    simp only [resolve_isMarkdown hres, resolve_isMarkdown hres2, and_self,
      not_true_eq_false, if_false] at hok
    split at hok
    · simp at hok
    · split at hok
      · simp at hok
      · simp only [Except.ok.injEq] at hok
        rw [← hok]

/-- Witness for C3 (amended), at the concrete save of `index.md`. -/
theorem c3_amended_witness :
    exSavedState.cache = cacheDelete exRenderedState.cache "/w/index.md" :=
  ((c3_amended "/w" "index.md" "index.md" "new" 6 exRenderedState exSavedState
      "index.md" "/w/index.md" "index.md" "/w/index.md").1 (by decide)).1 rfl

/-! ### C4: render cache correctness -/

/-- C4, counterexample: the claim's "hit iff stored time equals the
supplied time exactly" fails at the zero time. `Render` additionally
requires the stored time to be non-zero (`!cached.modTime.IsZero()`),
so with `t = 0` the second `render(path, 0, c₂)` re-renders and returns
`c₂`'s document instead of the cached `c₁` document the claim promises. -/
theorem c4_counterexample :
    (renderOp id [] "p" 0 "a").1.raw = "a" ∧
    (renderOp id (renderOp id [] "p" 0 "a").2 "p" 0 "b").1.raw = "b" ∧
    (renderOp id (renderOp id [] "p" 0 "a").2 "p" 0 "b").1 ≠ (renderOp id [] "p" 0 "a").1 :=
  ⟨rfl, rfl, by decide⟩

/-- C4, amended: a cache hit occurs iff the stored modification time
is **non-zero** and equals the caller-supplied time exactly (no fuzzy
match, no TTL); consequently for every non-zero `t`, rendering
`(path, t, c₁)` and then `(path, t, c₂)` returns `c₁`'s document, while
any `t'` different from the stored `t` re-renders and returns `c₂`'s
document. -/
theorem c4_amended (convert : String → String) (path c1 c2 : String) (t t' : Nat)
    (σ : RenderCache) :
    (∀ e c, cacheLookup σ path = some e →
      ((e.modTime ≠ 0 ∧ t = e.modTime) → renderOp convert σ path t c = (e.doc, σ)) ∧
      (¬ (e.modTime ≠ 0 ∧ t = e.modTime) →
        renderOp convert σ path t c =
          (⟨convert c, c, t⟩, cacheStore σ path ⟨t, ⟨convert c, c, t⟩⟩))) ∧
    (cacheLookup σ path = none →
      (renderOp convert σ path t c1).1 = ⟨convert c1, c1, t⟩ ∧
      (t ≠ 0 →
        (renderOp convert (renderOp convert σ path t c1).2 path t c2).1
          = (renderOp convert σ path t c1).1) ∧
      (t' ≠ t →
        (renderOp convert (renderOp convert σ path t c1).2 path t' c2).1
          = ⟨convert c2, c2, t'⟩)) := by
  constructor
  · intro e c he
    constructor
    · intro hcond
      unfold renderOp
      rw [he]
      dsimp only
      rw [if_pos hcond]
    · intro hcond
      unfold renderOp
      rw [he]
      dsimp only
      rw [if_neg hcond]
  · intro hnone
    have h1 : renderOp convert σ path t c1
        = (⟨convert c1, c1, t⟩, cacheStore σ path ⟨t, ⟨convert c1, c1, t⟩⟩) := by
      unfold renderOp
      rw [hnone]
    refine ⟨by rw [h1], ?_, ?_⟩
    · intro ht
      rw [h1]
      unfold renderOp
      rw [cacheLookup_store_self]
      dsimp only
      rw [if_pos ⟨ht, rfl⟩]
    · intro ht'
      rw [h1]
      unfold renderOp
      rw [cacheLookup_store_self]
      dsimp only
      rw [if_neg (fun hc => ht' hc.2)]

/-- Witness for C4 (amended): a stored entry with non-zero time `5` is a
hit at `t = 5`. -/
theorem c4_amended_witness :
    renderOp id [("p", { modTime := 5, doc := { html := "x", raw := "x", modified := 5 } })]
        "p" 5 "y"
      = ({ html := "x", raw := "x", modified := 5 },
         [("p", { modTime := 5, doc := { html := "x", raw := "x", modified := 5 } })]) :=
  ((c4_amended id "p" "y" "z" 5 6
      [("p", { modTime := 5, doc := { html := "x", raw := "x", modified := 5 } })]).1
    { modTime := 5, doc := { html := "x", raw := "x", modified := 5 } } "y" rfl).1
    ⟨by decide, rfl⟩

/-! ### C5/C6: event suppression and broadcast -/

/-- An `fsnotify` event carrying only the `Chmod` bit. -/
def chmodOnly : FsOp :=
  { create := false, write := false, remove := false, rename := false, chmod := true }

/-- An `fsnotify` event carrying only the `Write` bit. -/
def writeOnly : FsOp :=
  { create := false, write := true, remove := false, rename := false, chmod := false }

/-- A live subscriber with an empty queue. -/
def liveSubscriber : Subscriber := { ctxDone := false, queue := [] }

/-- A service state with one live subscriber and a published snapshot. -/
def exWatchState : ServiceState :=
  { fs := [], cache := [], treeSnap := some exNode, subs := [liveSubscriber] }

/-- C5, counterexample: a `Chmod`-only event on `x.md` classifies as
`unknown`, and `handleEvent` *does* broadcast it — the live subscriber's
queue receives an event of type `unknown` (and the `/events` handler
forwards every event it receives, with no filtering). The claim that
`unknown` events are never broadcast is false. -/
theorem c5_counterexample :
    classifyEvent true chmodOnly (isMarkdownPath "/w/x.md") = eventTypeUnknown ∧
    (handleEvent "/w" exWatchState "/w/x.md" chmodOnly
        { existsOnDisk := true, buildResult := some exNode, svcDone := false }).subs
      = [{ ctxDone := false, queue := [{ type := eventTypeUnknown, path := "x.md" }] }] :=
  ⟨rfl, rfl⟩

/-- C5, amended: events classified `unknown` are broadcast to the
subscribers exactly like any other event: for every non-empty event
path whose classification is `unknown`, `handleEvent` hands the event to
`broadcast` unconditionally (the only suppression in `handleEvent`
concerns `treeUpdated`/`deleted` events after a failed rebuild, which an
`unknown` event never is), and the `/events` handler transmits every
event received from its subscription channel. -/
theorem c5_amended (root name : String) (st : ServiceState) (op : FsOp) (env : WatchEnv)
    (hname : ¬ name = "")
    (hunknown : classifyEvent env.existsOnDisk op (isMarkdownPath name) = eventTypeUnknown) :
    (handleEvent root st name op env).subs
      = broadcast env.svcDone st.subs
          { type := eventTypeUnknown, path := relativePath root name } := by
  unfold handleEvent
  rw [if_neg hname, hunknown]
  rw [if_neg (fun hcond => by
    rcases hcond.2 with h | h <;>
      simp [eventTypeUnknown, eventTypeTreeUpdated, eventTypeDeleted] at h)]

/-- Witness for C5 (amended) at the chmod event of the counterexample
scenario, with a successful rebuild. -/
theorem c5_amended_witness :
    (handleEvent "/w" exWatchState "/w/x.md" chmodOnly
        { existsOnDisk := true, buildResult := some exNode, svcDone := false }).subs
      = broadcast false exWatchState.subs
          { type := eventTypeUnknown, path := relativePath "/w" "/w/x.md" } :=
  c5_amended "/w" "/w/x.md" exWatchState chmodOnly
    { existsOnDisk := true, buildResult := some exNode, svcDone := false }
    (by decide) (by decide)

/-- C6, counterexample: a markdown `Write` event while the rebuild
fails (`tree.Build` errors) classifies as `pageUpdated` and is **not**
suppressed: the live subscriber still receives it. Only
`treeUpdated`/`deleted` events are suppressed on rebuild failure, so the
claim "the triggering event — whatever its classified type — is
suppressed" is false. (The snapshot part of the claim does hold: the
prior snapshot survives.) -/
theorem c6_counterexample :
    classifyEvent true writeOnly (isMarkdownPath "/w/x.md") = eventTypePageUpdated ∧
    (handleEvent "/w" exWatchState "/w/x.md" writeOnly
        { existsOnDisk := true, buildResult := none, svcDone := false }).subs
      = [{ ctxDone := false, queue := [{ type := eventTypePageUpdated, path := "x.md" }] }] ∧
    (handleEvent "/w" exWatchState "/w/x.md" writeOnly
        { existsOnDisk := true, buildResult := none, svcDone := false }).treeSnap
      = some exNode :=
  ⟨rfl, rfl, rfl⟩

/-- C6, amended: when the rebuild triggered by a filesystem event
fails, the previously published tree snapshot remains unchanged, and the
triggering event is suppressed **iff** its classified type is
`treeUpdated` or `deleted`; a `pageUpdated` or `unknown` event is still
broadcast to the subscribers. -/
theorem c6_amended (root name : String) (st : ServiceState) (op : FsOp)
    (existsOnDisk svcDone : Bool) (hname : ¬ name = "") :
    (handleEvent root st name op ⟨existsOnDisk, none, svcDone⟩).treeSnap = st.treeSnap ∧
    ((classifyEvent existsOnDisk op (isMarkdownPath name) = eventTypeTreeUpdated ∨
      classifyEvent existsOnDisk op (isMarkdownPath name) = eventTypeDeleted) →
      (handleEvent root st name op ⟨existsOnDisk, none, svcDone⟩).subs = st.subs) ∧
    (¬ (classifyEvent existsOnDisk op (isMarkdownPath name) = eventTypeTreeUpdated ∨
        classifyEvent existsOnDisk op (isMarkdownPath name) = eventTypeDeleted) →
      (handleEvent root st name op ⟨existsOnDisk, none, svcDone⟩).subs
        = broadcast svcDone st.subs
            { type := classifyEvent existsOnDisk op (isMarkdownPath name)
              path := relativePath root name }) := by
  unfold handleEvent
  rw [if_neg hname]
  by_cases hty : classifyEvent existsOnDisk op (isMarkdownPath name) = eventTypeTreeUpdated ∨
      classifyEvent existsOnDisk op (isMarkdownPath name) = eventTypeDeleted
  · rw [if_pos ⟨by simp [rebuildTree], hty⟩]
    exact ⟨rfl, fun _ => rfl, fun hcontra => absurd hty hcontra⟩
  · rw [if_neg (fun hcond => hty hcond.2)]
    exact ⟨rfl, fun hcontra => absurd hcontra hty, fun _ => rfl⟩

/-- Witness for C6 (amended) at the failing-rebuild write event of the
counterexample scenario. -/
theorem c6_amended_witness :
    (handleEvent "/w" exWatchState "/w/x.md" writeOnly
        { existsOnDisk := true, buildResult := none, svcDone := false }).treeSnap
      = exWatchState.treeSnap :=
  (c6_amended "/w" "/w/x.md" exWatchState writeOnly true false (by decide)).1

/-! ### C7: link rewriting -/

/-- C7. Link rewriting: in a document at wiki path `a/b.md` a relative
destination `foo.md` becomes `/page/a/foo.md`; destinations that are
empty, fragment-only, `http(s)://`-prefixed, already under `/page/`, or
not ending in `.md` are left unchanged; every other non-absolute
destination is joined with the document's directory, cleaned, stripped
of a leading `/` and prefixed with `/page/`. -/
theorem c7_link_rewrite (dest currentDir : String) :
    transformLink "foo.md" (goPathDir "a/b.md") = "/page/a/foo.md" ∧
    ((dest = "" ∨ isExternalLink dest = true ∨ goHasPrefix dest "#" = true ∨
      goHasPrefix dest "/page/" = true ∨ goHasSuffix dest ".md" = false) →
      transformLink dest currentDir = dest) ∧
    (¬ dest = "" → isExternalLink dest = false → goHasPrefix dest "#" = false →
      goHasPrefix dest "/page/" = false → goHasSuffix dest ".md" = true →
      goHasPrefix dest "/" = false →
      transformLink dest currentDir
        = "/page/" ++ goTrimPrefix (goClean
            (if currentDir ≠ "" ∧ currentDir ≠ "." then goJoin currentDir dest
             else dest)) "/") := by
  refine ⟨by decide, ?_, ?_⟩
  · intro h
    unfold transformLink
    rcases h with h | h | h | h | h
    · simp [h]
    · simp [h]
    · simp [h]
    · simp [h]
    · split
      · rfl
      · rw [if_pos (by simp [h])]
  · intro h1 h2 h3 h4 h5 h6
    unfold transformLink
    rw [if_neg (by simp [h1, h2, h3, h4])]
    rw [if_neg (by simp [h5])]
    unfold normalizeWikiPath
    rw [if_pos (by simp [h6])]

/-- Witness for C7 at a fragment-only destination and at the claim's
`foo.md`-under-`a/b.md` example. -/
theorem c7_link_rewrite_witness :
    transformLink "#intro" "a" = "#intro" ∧
    transformLink "foo.md" "a"
      = "/page/" ++ goTrimPrefix (goClean (if "a" ≠ "" ∧ "a" ≠ "." then goJoin "a" "foo.md"
          else "foo.md")) "/" :=
  ⟨(c7_link_rewrite "#intro" "a").2.1 (Or.inr (Or.inr (Or.inl (by decide)))),
   (c7_link_rewrite "foo.md" "a").2.2 (by decide) (by decide) (by decide) (by decide)
     (by decide) (by decide)⟩

/-! ### C8: CSRF gate -/

/-- C8 evaluation at the failing input. The middleware strips the
"port" at the **last** colon, so a bare IPv6 loopback origin host
`[::1]` is mangled to `[:` and never matches the `[::1]`-equivalence
the code's own localhost branch (and the spec) intend: a `POST` to
`/api/page` with `Origin: http://[::1]` against host
`localhost:8080` is rejected `403`, although with an explicit port
(`[::1]:8080`) the same equivalence works. Safe methods and the bypass
paths behave as claimed. -/
theorem c8_csrf_eval :
    normalizeHost "[::1]" = "[:" ∧
    normalizeHost "[::1]:8080" = "localhost" ∧
    csrfMiddleware "POST" "/api/page" "http://[::1]" "" "localhost:8080"
      = CsrfResult.forbidden ∧
    csrfMiddleware "POST" "/api/page" "http://localhost:8080" "" "127.0.0.1:8080"
      = CsrfResult.pass ∧
    csrfMiddleware "POST" "/api/page" "" "http://localhost:8080/some-page" "localhost:8080"
      = CsrfResult.pass ∧
    csrfMiddleware "POST" "/api/page" "" "" "localhost:8080" = CsrfResult.forbidden ∧
    csrfMiddleware "GET" "/api/page/x.md" "" "" "localhost:8080" = CsrfResult.pass ∧
    csrfMiddleware "POST" "/healthz" "" "" "localhost:8080" = CsrfResult.pass ∧
    csrfMiddleware "POST" "/static/app.css" "" "" "localhost:8080" = CsrfResult.pass := by
  decide

/-! ### C9: the published snapshot is never nil on a live service -/

theorem rebuildTree_fst_isSome (snap : Option Node) (buildResult : Option Node)
    (h : snap.isSome) : (rebuildTree snap buildResult).1.isSome := by
  cases buildResult with
  | none => exact h
  | some n => rfl

theorem handleEvent_treeSnap_isSome (root name : String) (st : ServiceState) (op : FsOp)
    (env : WatchEnv) (h : st.treeSnap.isSome) :
    (handleEvent root st name op env).treeSnap.isSome := by
  unfold handleEvent
  split
  · exact h
  · split
    · exact rebuildTree_fst_isSome st.treeSnap env.buildResult h
    · exact rebuildTree_fst_isSome st.treeSnap env.buildResult h

theorem saveDocument_treeSnap {root : String} {st st' : ServiceState}
    {relPath data : String} {now : Nat} (h : saveDocument root st relPath data now = .ok st') :
    st'.treeSnap = st.treeSnap := by
  unfold saveDocument at h
  split at h
  · simp at h
  · split at h
    · simp at h
    · split at h
      · simp at h
      · simp only [Except.ok.injEq] at h
        rw [← h]

theorem createDocument_treeSnap {root : String} {st st' : ServiceState}
    {relPath data : String} {now : Nat}
    (h : createDocument root st relPath data now = .ok st') :
    st'.treeSnap = st.treeSnap := by
  unfold createDocument at h
  split at h
  · simp at h
  · split at h
    · simp at h
    · split at h
      · simp at h
      · simp only [Except.ok.injEq] at h
        rw [← h]

theorem renameDocument_treeSnap {root : String} {st st' : ServiceState}
    {fromPath toPath : String} (h : renameDocument root st fromPath toPath = .ok st') :
    st'.treeSnap = st.treeSnap := by
  unfold renameDocument at h
  split at h
  · simp at h
  · split at h
    · simp at h
    · split at h
      · simp at h
      · split at h
        · simp at h
        · split at h
          · simp at h
          · simp only [Except.ok.injEq] at h
            rw [← h]

theorem deleteDocument_treeSnap {root : String} {st st' : ServiceState}
    {relPath : String} (h : deleteDocument root st relPath = .ok st') :
    st'.treeSnap = st.treeSnap := by
  unfold deleteDocument at h
  split at h
  · simp at h
  · split at h
    · simp at h
    · split at h
      · simp at h
      · simp only [Except.ok.injEq] at h
        rw [← h]

theorem documentOp_treeSnap {convert : String → String} {root : String}
    {st st' : ServiceState} {relPath : String} {d : Document}
    (h : documentOp convert root st relPath = .ok (d, st')) :
    st'.treeSnap = st.treeSnap := by
  unfold documentOp at h
  split at h
  · simp at h
  · split at h
    · simp at h
    · simp only [Except.ok.injEq, Prod.mk.injEq] at h
      rw [← h.2]

/-- Every state reachable on a live service keeps a non-`nil` snapshot:
`initTree` stored one before `NewService` returned, and `rebuildTree`
stores only on build success. -/
theorem reachable_treeSnap_isSome {st : ServiceState} (h : Reachable st) :
    st.treeSnap.isSome := by
  induction h with
  | init n fs => rfl
  | watch root name op env hst ih => exact handleEvent_treeSnap_isSome _ _ _ _ _ ih
  | save root relPath data now hst hok ih => rw [saveDocument_treeSnap hok]; exact ih
  | create root relPath data now hst hok ih => rw [createDocument_treeSnap hok]; exact ih
  | rename root fromPath toPath hst hok ih => rw [renameDocument_treeSnap hok]; exact ih
  | delete root relPath hst hok ih => rw [deleteDocument_treeSnap hok]; exact ih
  | document convert root relPath d st' hst hok ih => rw [documentOp_treeSnap hok]; exact ih
  | subsChange subs' hst ih => exact ih
  | fsChange fs' hst ih => exact ih

/-- C9. Once `NewService` has returned successfully, the published
snapshot is always non-`nil`, so `CurrentTree` never returns the
"tree not initialized" error on a live service — its only failure mode
is a cancelled context. -/
theorem c9_never_uninitialized (st : ServiceState) (h : Reachable st) (canceled : Bool) :
    currentTree canceled st ≠ .error .uninitialized := by
  have hsnap := reachable_treeSnap_isSome h
  unfold currentTree
  split
  · simp
  · cases hsome : st.treeSnap with
    | none => rw [hsome] at hsnap; simp at hsnap
    | some n => simp

/-- Witness for C9 at the freshly initialized service state. -/
theorem c9_never_uninitialized_witness :
    currentTree false { fs := [], cache := [], treeSnap := some exNode, subs := [] }
      ≠ .error .uninitialized :=
  c9_never_uninitialized _ (Reachable.init exNode []) false

end WikiMD

